import Mathlib

/-!
Verification of the conversation context engine of `personal-ai-assistant`.

The development shallowly embeds the Python modules
`src/utils/token_manager.py`, `src/database/repository.py`,
`src/database/models.py`, `src/core/result.py` and the error mapper of
`src/clients/openai_client.py` as executable Lean definitions, and proves
(or refutes) the specification's claims about them.
-/

namespace PersonalAssistant

/-! ## Messages

A chat message, the `{"role": ..., "content": ...}` dict used throughout the
code base.  `content` defaults to `""` in the source (`msg.get("content", "")`),
so it is modelled as a total `String` field. -/

structure Message where
  role : String
  content : String
deriving DecidableEq, Repr

/-- A throwaway default message, used only for out-of-range `getD` indexing in
theorem statements. -/
def mDefault : Message := ⟨"", ""⟩

/-! ## TokenManager (`src/utils/token_manager.py`)

The tiktoken encoding object is used by the source only through
`len(self.encoding.encode(text))`; it is therefore embedded as an abstract
length function `encLen : String → Nat`. -/

structure TokenManager where
  encLen : String → Nat
  max_tokens : Nat

/-- `TokenManager.estimate_tokens`: 4 tokens of framing per message plus the
encoded length of its content, plus 2 tokens of completion framing added once. -/
def TokenManager.estimate_tokens (tm : TokenManager) (messages : List Message) : Nat :=
  messages.foldl (fun acc m => acc + 4 + tm.encLen m.content) 0 + 2

/-- The trimming loop of `trim_messages_to_fit`: walk the (already reversed)
candidate list, accepting each message whose marginal cost still fits in
`max_tokens`, and stop at the first message that does not fit (`else: break`). -/
def TokenManager.trimWalk (tm : TokenManager) : Nat → List Message → List Message
  | _, [] => []
  | current, m :: rest =>
    let needed := tm.estimate_tokens [m]
    if current + needed ≤ tm.max_tokens then
      m :: tm.trimWalk (current + needed) rest
    else
      []

/-- `TokenManager.trim_messages_to_fit`: keep the system messages (when
`preserve_system`), walk remaining messages most-recent-first against the
budget, and return system messages followed by the accepted candidates in
chronological order. -/
def TokenManager.trim_messages_to_fit (tm : TokenManager) (messages : List Message)
    (preserve_system : Bool) : List Message :=
  if messages.isEmpty then []
  else
    let system_messages :=
      if preserve_system then messages.filter (fun m => m.role == "system") else []
    let candidates :=
      if preserve_system then messages.filter (fun m => m.role != "system") else messages
    let trimmed := tm.trimWalk (tm.estimate_tokens system_messages) candidates.reverse
    system_messages ++ trimmed.reverse

/-- Per-message cost inside `estimate_tokens` (without the final `+ 2`). -/
def TokenManager.msgCost (tm : TokenManager) (m : Message) : Nat :=
  4 + tm.encLen m.content

/-- Marginal cost sum: total of `estimate_tokens [m]` over a list, the
quantity the walk accumulates into `current_tokens`. -/
def TokenManager.neededSum (tm : TokenManager) (l : List Message) : Nat :=
  (l.map (fun m => tm.estimate_tokens [m])).sum

theorem TokenManager.neededSum_nil (tm : TokenManager) : tm.neededSum [] = 0 := rfl

theorem TokenManager.neededSum_cons (tm : TokenManager) (m : Message) (l : List Message) :
    tm.neededSum (m :: l) = tm.estimate_tokens [m] + tm.neededSum l := by
  simp [TokenManager.neededSum]

theorem TokenManager.foldl_cost (tm : TokenManager) :
    ∀ (l : List Message) (n : Nat),
      l.foldl (fun acc m => acc + 4 + tm.encLen m.content) n = n + (l.map tm.msgCost).sum
  | [], n => by simp
  | m :: l, n => by
    simp only [List.foldl_cons, List.map_cons, List.sum_cons]
    rw [TokenManager.foldl_cost tm l]
    simp [TokenManager.msgCost]
    omega

theorem TokenManager.estimate_tokens_eq (tm : TokenManager) (l : List Message) :
    tm.estimate_tokens l = (l.map tm.msgCost).sum + 2 := by
  simp [TokenManager.estimate_tokens, TokenManager.foldl_cost]

theorem TokenManager.estimate_single (tm : TokenManager) (m : Message) :
    tm.estimate_tokens [m] = tm.msgCost m + 2 := by
  simp [TokenManager.estimate_tokens_eq]

/-- Budget invariant of the walk: starting from a `current` within budget, the
accumulated per-message cost of everything the walk accepts stays within budget. -/
theorem TokenManager.trimWalk_bound (tm : TokenManager) :
    ∀ (msgs : List Message) (current : Nat), current ≤ tm.max_tokens →
      current + ((tm.trimWalk current msgs).map tm.msgCost).sum ≤ tm.max_tokens
  | [], current, h => by simpa [TokenManager.trimWalk] using h
  | m :: rest, current, h => by
    rw [TokenManager.trimWalk]
    by_cases hfit : current + tm.estimate_tokens [m] ≤ tm.max_tokens
    · simp only [hfit, if_true, List.map_cons, List.sum_cons]
      have ih := TokenManager.trimWalk_bound tm rest (current + tm.estimate_tokens [m]) hfit
      have hsingle := tm.estimate_single m
      omega
    · simpa [hfit] using h

/-- If the pinned cost already exceeds the budget, the walk accepts nothing. -/
theorem TokenManager.trimWalk_over_budget (tm : TokenManager) (msgs : List Message)
    (current : Nat) (h : tm.max_tokens < current) : tm.trimWalk current msgs = [] := by
  cases msgs with
  | nil => rfl
  | cons m rest =>
    rw [TokenManager.trimWalk]
    have : ¬ current + tm.estimate_tokens [m] ≤ tm.max_tokens := by omega
    simp [this]

/-- C1: the trimmed history respects the budget.  Unconditionally, its cost is
at most the pinned cost plus the budget remaining after the pinned messages;
in particular whenever the pinned (system) messages alone fit in `max_tokens`,
so does the whole trimmed output. -/
theorem TokenManager.trim_respects_budget (tm : TokenManager) (H : List Message) :
    tm.estimate_tokens (tm.trim_messages_to_fit H true)
        ≤ tm.estimate_tokens (H.filter (fun m => m.role == "system"))
          + (tm.max_tokens
              - tm.estimate_tokens (H.filter (fun m => m.role == "system")))
    ∧ (tm.estimate_tokens (H.filter (fun m => m.role == "system")) ≤ tm.max_tokens →
        tm.estimate_tokens (tm.trim_messages_to_fit H true) ≤ tm.max_tokens) := by
  by_cases hemp : H.isEmpty
  · have hH : H = [] := by cases H <;> simp_all
    subst hH
    constructor
    · simp [TokenManager.trim_messages_to_fit, TokenManager.estimate_tokens]
    · intro h
      simpa [TokenManager.trim_messages_to_fit] using h
  · have hres : tm.trim_messages_to_fit H true
        = H.filter (fun m => m.role == "system")
          ++ (tm.trimWalk
                (tm.estimate_tokens (H.filter (fun m => m.role == "system")))
                (H.filter (fun m => m.role != "system")).reverse).reverse := by
      simp [TokenManager.trim_messages_to_fit, hemp]
    set sys := H.filter (fun m => m.role == "system") with hsys
    set acc := tm.trimWalk (tm.estimate_tokens sys)
        (H.filter (fun m => m.role != "system")).reverse with hacc
    have hcost : tm.estimate_tokens (tm.trim_messages_to_fit H true)
        = tm.estimate_tokens sys + (acc.map tm.msgCost).sum := by
      rw [hres, tm.estimate_tokens_eq, tm.estimate_tokens_eq]
      simp only [List.map_append, List.sum_append, List.map_reverse, List.sum_reverse]
      omega
    by_cases hfit : tm.estimate_tokens sys ≤ tm.max_tokens
    · have hb := tm.trimWalk_bound
        ((H.filter (fun m => m.role != "system")).reverse) (tm.estimate_tokens sys) hfit
      rw [← hacc] at hb
      constructor
      · omega
      · intro _; omega
    · push_neg at hfit
      have hnil : acc = [] := by
        rw [hacc]
        exact tm.trimWalk_over_budget _ _ hfit
      rw [hnil] at hcost
      simp only [List.map_nil, List.sum_nil, Nat.add_zero] at hcost
      constructor
      · omega
      · intro h; omega

/-- Concrete token manager for witnesses: character-count encoding, budget 20. -/
def tmW : TokenManager := ⟨String.length, 20⟩

/-- Concrete token manager with a budget smaller than any system message cost. -/
def tmSmall : TokenManager := ⟨String.length, 1⟩

/-- Concrete history for witnesses. -/
def HW : List Message :=
  [Message.mk "system" "sys", Message.mk "user" "hello", Message.mk "assistant" "hi"]

/-- Witness for C1 at a concrete history whose pinned messages fit the budget. -/
theorem trim_respects_budget_witness :
    tmW.estimate_tokens (tmW.trim_messages_to_fit HW true) ≤ tmW.max_tokens :=
  (TokenManager.trim_respects_budget tmW HW).2 (by decide)

/-- C2: trimming with `preserve_system` keeps every system message of the
input, in original relative order, at the front of the result — whatever the
budget — and when there are no non-system candidates the result is exactly
the system messages. -/
theorem trim_preserves_system_messages (tm : TokenManager) (H : List Message) :
    (∃ t, tm.trim_messages_to_fit H true
        = H.filter (fun m => m.role == "system") ++ t)
    ∧ (H.filter (fun m => m.role != "system") = [] →
        tm.trim_messages_to_fit H true = H.filter (fun m => m.role == "system")) := by
  by_cases hemp : H.isEmpty
  · have hH : H = [] := by cases H <;> simp_all
    subst hH
    exact ⟨⟨[], by simp [TokenManager.trim_messages_to_fit]⟩,
      fun _ => by simp [TokenManager.trim_messages_to_fit]⟩
  · have hres : tm.trim_messages_to_fit H true
        = H.filter (fun m => m.role == "system")
          ++ (tm.trimWalk
                (tm.estimate_tokens (H.filter (fun m => m.role == "system")))
                (H.filter (fun m => m.role != "system")).reverse).reverse := by
      simp [TokenManager.trim_messages_to_fit, hemp]
    refine ⟨⟨_, hres⟩, fun hcand => ?_⟩
    rw [hres, hcand]
    simp [TokenManager.trimWalk]

/-- Witness for C2: two system messages, a budget of 1 (below their cost), no
candidates — the result is exactly the two system messages. -/
theorem trim_preserves_system_messages_witness :
    tmSmall.trim_messages_to_fit [Message.mk "system" "a", Message.mk "system" "b"] true
      = [Message.mk "system" "a", Message.mk "system" "b"] :=
  ((trim_preserves_system_messages tmSmall
      [Message.mk "system" "a", Message.mk "system" "b"]).2 (by decide)).trans (by decide)

/-- Full characterisation of the walk: it returns exactly a prefix `take k` of
its input; every accepted message fitted the running budget, and if the walk
stopped before the end then the very next message did not fit. -/
theorem TokenManager.trimWalk_spec (tm : TokenManager) :
    ∀ (msgs : List Message) (current : Nat),
      ∃ k, k ≤ msgs.length ∧ tm.trimWalk current msgs = msgs.take k ∧
        (∀ i, i < k →
          current + tm.neededSum (msgs.take i)
            + tm.estimate_tokens [msgs.getD i mDefault] ≤ tm.max_tokens) ∧
        (k < msgs.length →
          tm.max_tokens <
            current + tm.neededSum (msgs.take k)
              + tm.estimate_tokens [msgs.getD k mDefault])
  | [], current => by
    refine ⟨0, Nat.le_refl 0, rfl, ?_, ?_⟩
    · intro i hi; omega
    · intro h; simp at h
  | m :: rest, current => by
    rw [TokenManager.trimWalk]
    by_cases hfit : current + tm.estimate_tokens [m] ≤ tm.max_tokens
    · obtain ⟨k, hk, hwalk, hacc, hrej⟩ :=
        TokenManager.trimWalk_spec tm rest (current + tm.estimate_tokens [m])
      refine ⟨k + 1, by simpa using Nat.succ_le_succ hk, ?_, ?_, ?_⟩
      · simp [hfit, hwalk]
      · intro i hi
        cases i with
        | zero => simpa [TokenManager.neededSum] using hfit
        | succ j =>
          have hj : j < k := by omega
          have h := hacc j hj
          simp only [List.take_succ_cons, TokenManager.neededSum_cons,
            List.getD_cons_succ]
          omega
      · intro hk1
        have hkr : k < rest.length := by simpa using Nat.lt_of_succ_lt_succ hk1
        have h := hrej hkr
        simp only [List.take_succ_cons, TokenManager.neededSum_cons,
          List.getD_cons_succ]
        omega
    · refine ⟨0, Nat.zero_le _, by simp [hfit], ?_, ?_⟩
      · intro i hi; omega
      · intro _
        simp only [List.take_zero, TokenManager.neededSum_nil, List.getD_cons_zero]
        omega

/-- C3: the trim is stop-at-first-miss.  There is a `k` such that the output
is the system messages followed by exactly the `k` most recent candidates in
chronological order; walking most-recent-first, each of those `k` fitted the
running budget, and if any candidate remains beyond them, the first such
(most recent unaccepted) candidate did not fit — so nothing older than a
rejected candidate is ever included. -/
theorem TokenManager.trim_stop_at_first_miss (tm : TokenManager) (H : List Message) :
    ∃ k, k ≤ (H.filter (fun m => m.role != "system")).reverse.length ∧
      tm.trim_messages_to_fit H true
        = H.filter (fun m => m.role == "system")
          ++ ((H.filter (fun m => m.role != "system")).reverse.take k).reverse ∧
      (∀ i, i < k →
        tm.estimate_tokens (H.filter (fun m => m.role == "system"))
          + tm.neededSum ((H.filter (fun m => m.role != "system")).reverse.take i)
          + tm.estimate_tokens
              [(H.filter (fun m => m.role != "system")).reverse.getD i mDefault]
          ≤ tm.max_tokens) ∧
      (k < (H.filter (fun m => m.role != "system")).reverse.length →
        tm.max_tokens <
          tm.estimate_tokens (H.filter (fun m => m.role == "system"))
            + tm.neededSum ((H.filter (fun m => m.role != "system")).reverse.take k)
            + tm.estimate_tokens
                [(H.filter (fun m => m.role != "system")).reverse.getD k mDefault]) := by
  by_cases hemp : H.isEmpty
  · have hH : H = [] := by cases H <;> simp_all
    subst hH
    refine ⟨0, by simp, by simp [TokenManager.trim_messages_to_fit], ?_, ?_⟩
    · intro i hi; omega
    · intro h; simp at h
  · obtain ⟨k, hk, hwalk, hacc, hrej⟩ := tm.trimWalk_spec
      (H.filter (fun m => m.role != "system")).reverse
      (tm.estimate_tokens (H.filter (fun m => m.role == "system")))
    refine ⟨k, hk, ?_, hacc, hrej⟩
    rw [show tm.trim_messages_to_fit H true
        = H.filter (fun m => m.role == "system")
          ++ (tm.trimWalk
                (tm.estimate_tokens (H.filter (fun m => m.role == "system")))
                (H.filter (fun m => m.role != "system")).reverse).reverse from by
      simp [TokenManager.trim_messages_to_fit, hemp]]
    rw [hwalk]

/-- Two managers with the same encoding assign the same cost to any list. -/
theorem TokenManager.estimate_tokens_congr (tm1 tm2 : TokenManager)
    (henc : tm1.encLen = tm2.encLen) (l : List Message) :
    tm1.estimate_tokens l = tm2.estimate_tokens l := by
  simp [TokenManager.estimate_tokens, henc]

/-- Raising the budget (same encoding) never shortens the walk's output. -/
theorem TokenManager.trimWalk_length_mono (tm1 tm2 : TokenManager)
    (henc : tm1.encLen = tm2.encLen) (hB : tm1.max_tokens ≤ tm2.max_tokens) :
    ∀ (msgs : List Message) (current : Nat),
      (tm1.trimWalk current msgs).length ≤ (tm2.trimWalk current msgs).length
  | [], current => by simp [TokenManager.trimWalk]
  | m :: rest, current => by
    rw [TokenManager.trimWalk, TokenManager.trimWalk]
    have hest : tm1.estimate_tokens [m] = tm2.estimate_tokens [m] :=
      TokenManager.estimate_tokens_congr tm1 tm2 henc [m]
    by_cases h1 : current + tm1.estimate_tokens [m] ≤ tm1.max_tokens
    · have h2 : current + tm1.estimate_tokens [m] ≤ tm2.max_tokens := by omega
      rw [← hest]
      simp only [h1, if_true, h2, List.length_cons]
      exact Nat.succ_le_succ
        (TokenManager.trimWalk_length_mono tm1 tm2 henc hB rest
          (current + tm1.estimate_tokens [m]))
    · simp [h1]

/-- Everything the walk returns came from its input list. -/
theorem TokenManager.trimWalk_subset (tm : TokenManager) (msgs : List Message)
    (current : Nat) {m : Message} (hm : m ∈ tm.trimWalk current msgs) : m ∈ msgs := by
  obtain ⟨k, _, hwalk, _, _⟩ := tm.trimWalk_spec msgs current
  rw [hwalk] at hm
  exact (List.take_sublist k msgs).subset hm

/-- The non-system part of the trimmed output is exactly the accepted walk. -/
theorem TokenManager.trim_filter_eq (tm : TokenManager) (H : List Message)
    (hemp : ¬ H.isEmpty) :
    ((tm.trim_messages_to_fit H true).filter (fun m => m.role != "system")).length
      = (tm.trimWalk (tm.estimate_tokens (H.filter (fun m => m.role == "system")))
          (H.filter (fun m => m.role != "system")).reverse).length := by
  have hres : tm.trim_messages_to_fit H true
      = H.filter (fun m => m.role == "system")
        ++ (tm.trimWalk
              (tm.estimate_tokens (H.filter (fun m => m.role == "system")))
              (H.filter (fun m => m.role != "system")).reverse).reverse := by
    simp [TokenManager.trim_messages_to_fit, hemp]
  rw [hres, List.filter_append]
  have hsys : (H.filter (fun m => m.role == "system")).filter
      (fun m => m.role != "system") = [] := by
    rw [List.filter_eq_nil_iff]
    intro a ha
    have := (List.mem_filter.mp ha).2
    simp_all
  have hcand : ((tm.trimWalk
      (tm.estimate_tokens (H.filter (fun m => m.role == "system")))
      (H.filter (fun m => m.role != "system")).reverse).reverse).filter
        (fun m => m.role != "system")
      = (tm.trimWalk (tm.estimate_tokens (H.filter (fun m => m.role == "system")))
          (H.filter (fun m => m.role != "system")).reverse).reverse := by
    rw [List.filter_eq_self]
    intro a ha
    rw [List.mem_reverse] at ha
    have hmem := tm.trimWalk_subset _ _ ha
    rw [List.mem_reverse] at hmem
    exact (List.mem_filter.mp hmem).2
  rw [hsys, hcand]
  simp

/-- C4: trimming is monotone in the budget — with the same encoding and a
larger (or equal) `max_tokens`, the number of accepted non-system candidate
messages never decreases. -/
theorem TokenManager.trim_monotone_in_budget (tm1 tm2 : TokenManager)
    (henc : tm1.encLen = tm2.encLen) (hB : tm1.max_tokens ≤ tm2.max_tokens)
    (H : List Message) :
    ((tm1.trim_messages_to_fit H true).filter (fun m => m.role != "system")).length
      ≤ ((tm2.trim_messages_to_fit H true).filter (fun m => m.role != "system")).length := by
  by_cases hemp : H.isEmpty
  · have hH : H = [] := by cases H <;> simp_all
    subst hH
    simp [TokenManager.trim_messages_to_fit]
  · rw [tm1.trim_filter_eq H hemp, tm2.trim_filter_eq H hemp,
      TokenManager.estimate_tokens_congr tm1 tm2 henc]
    exact TokenManager.trimWalk_length_mono tm1 tm2 henc hB _ _

/-- Witness for C4 at budgets 1 ≤ 20 on the concrete history `HW`. -/
theorem trim_monotone_in_budget_witness :
    tmSmall.max_tokens ≤ tmW.max_tokens ∧
    ((tmSmall.trim_messages_to_fit HW true).filter (fun m => m.role != "system")).length
      ≤ ((tmW.trim_messages_to_fit HW true).filter (fun m => m.role != "system")).length :=
  ⟨by decide, TokenManager.trim_monotone_in_budget tmSmall tmW rfl (by decide) HW⟩

/-! ## Constructor behaviour (`TokenManager.__init__`)

`__init__` sets `self.encoding = tiktoken.encoding_for_model(model_name)` with
no exception handling.  The external tiktoken dependency is embedded below from
its published contract: an exact model-name table, then a table of recognised
model-name beginnings, and otherwise a `KeyError` ("Could not automatically map
<name> to a tokeniser."). -/

/-- Exact model-name to encoding-name table of tiktoken (representative rows). -/
def MODEL_TO_ENCODING : List (String × String) :=
  [("gpt-4o", "o200k_base"),
   ("gpt-4", "cl100k_base"),
   ("gpt-3.5-turbo", "cl100k_base"),
   ("gpt-3.5", "cl100k_base"),
   ("gpt-35-turbo", "cl100k_base"),
   ("davinci-002", "cl100k_base"),
   ("babbage-002", "cl100k_base"),
   ("text-embedding-ada-002", "cl100k_base"),
   ("text-davinci-003", "p50k_base"),
   ("text-davinci-002", "p50k_base"),
   ("code-davinci-002", "p50k_base"),
   ("davinci", "r50k_base"),
   ("curie", "r50k_base"),
   ("babbage", "r50k_base"),
   ("ada", "r50k_base"),
   ("gpt2", "gpt2")]

/-- Recognised model-name beginnings of tiktoken (representative rows). -/
def MODEL_STEM_TO_ENCODING : List (String × String) :=
  [("o1-", "o200k_base"),
   ("chatgpt-4o-", "o200k_base"),
   ("gpt-4o-", "o200k_base"),
   ("gpt-4-", "cl100k_base"),
   ("gpt-3.5-turbo-", "cl100k_base"),
   ("gpt-35-turbo-", "cl100k_base"),
   ("gpt-3.5-", "cl100k_base"),
   ("ft:gpt-4", "cl100k_base"),
   ("ft:gpt-3.5-turbo", "cl100k_base"),
   ("ft:davinci-002", "cl100k_base"),
   ("ft:babbage-002", "cl100k_base")]

/-- `s` begins with `pat`, on character lists. -/
def beginsWithL : List Char → List Char → Bool
  | _, [] => true
  | [], _ :: _ => false
  | c :: cs, p :: ps => c == p && beginsWithL cs ps

/-- Python `s.startswith(pat)`. -/
def strBeginsWith (s pat : String) : Bool := beginsWithL s.data pat.data

/-- tiktoken's `encoding_for_model` name resolution: exact table first, then
name-beginning table, otherwise a `KeyError` (modelled as `Except.error`). -/
def encoding_name_for_model (model_name : String) : Except String String :=
  match MODEL_TO_ENCODING.lookup model_name with
  | some enc => Except.ok enc
  | none =>
    match MODEL_STEM_TO_ENCODING.find? (fun p => strBeginsWith model_name p.1) with
    | some p => Except.ok p.2
    | none =>
      Except.error ("Could not automatically map " ++ model_name ++ " to a tokeniser.")

/-- `TokenManager.__init__` (named `pyInit` since Lean forbids dunder names):
looks the encoding up by model name — with no `try`/`except` around the lookup —
and stores it together with `max_tokens`.  `encLenOf` assigns each encoding
name its token-length function. -/
def TokenManager.pyInit (encLenOf : String → String → Nat) (model_name : String)
    (max_tokens : Nat) : Except String TokenManager :=
  match encoding_name_for_model model_name with
  | Except.ok encName => Except.ok ⟨encLenOf encName, max_tokens⟩
  | Except.error e => Except.error e

/-- Counterexample to C5: constructing a `TokenManager` with a model name the
encoding table does not know fails with the propagated `KeyError`; no default
encoding is selected. -/
theorem tokenManager_init_unknown_model_fails :
    TokenManager.pyInit (fun _ s => s.length) "llama-3-8b-instruct" 4000
      = Except.error
          "Could not automatically map llama-3-8b-instruct to a tokeniser." := by
  rfl

/-- C5 as amended: for every model name with no exact table entry and no
recognised name-beginning, construction propagates the lookup error instead of
falling back to a default encoding. -/
theorem tokenManager_init_no_fallback (encLenOf : String → String → Nat)
    (max_tokens : Nat) (model_name : String)
    (h1 : MODEL_TO_ENCODING.lookup model_name = none)
    (h2 : MODEL_STEM_TO_ENCODING.find? (fun p => strBeginsWith model_name p.1) = none) :
    TokenManager.pyInit encLenOf model_name max_tokens
      = Except.error
          ("Could not automatically map " ++ model_name ++ " to a tokeniser.") := by
  simp [TokenManager.pyInit, encoding_name_for_model, h1, h2]

/-- Witness for the amended C5 at the concrete unknown name. -/
theorem tokenManager_init_no_fallback_witness :
    MODEL_TO_ENCODING.lookup "llama-3-8b-instruct" = none ∧
    TokenManager.pyInit (fun _ s => s.length) "llama-3-8b-instruct" 4000
      = Except.error
          ("Could not automatically map " ++ "llama-3-8b-instruct" ++ " to a tokeniser.") :=
  ⟨by decide,
    tokenManager_init_no_fallback (fun _ s => s.length) 4000 "llama-3-8b-instruct"
      (by decide) (by decide)⟩

/-! ## Error mapper (`OpenAIClient._handle_api_error`, src/clients/openai_client.py)

The fault handed to the mapper is an exception that is either a structured
`AuthenticationError`, a structured `RateLimitError`, or anything else, and
carries the text produced by `str(error)`. -/

/-- A fault as seen by `_handle_api_error`: its structured type and message. -/
inductive PyAPIError where
  | authenticationError (msg : String)
  | rateLimitError (msg : String)
  | otherError (msg : String)
deriving DecidableEq, Repr

/-- Python `str(error)`. -/
def PyAPIError.str : PyAPIError → String
  | .authenticationError m => m
  | .rateLimitError m => m
  | .otherError m => m

/-- `isinstance(error, AuthenticationError)`. -/
def isAuthenticationError : PyAPIError → Bool
  | .authenticationError _ => true
  | _ => false

/-- `isinstance(error, RateLimitError)`. -/
def isRateLimitError : PyAPIError → Bool
  | .rateLimitError _ => true
  | _ => false

/-- `pat` occurs as a contiguous run inside `l`. -/
def containsL (pat : List Char) : List Char → Bool
  | [] => pat.isEmpty
  | c :: cs => beginsWithL (c :: cs) pat || containsL pat cs

/-- Python `pat in s` on strings. -/
def strContains (s pat : String) : Bool := containsL pat.data s.data

/-- Python `s.lower()`. -/
def strLower (s : String) : String := ⟨s.data.map Char.toLower⟩

/-- The domain error object `_handle_api_error` wraps into
`ChatCompletionResult.fail`. -/
inductive MappedAPIError where
  | apiAuthenticationError (msg : String)
  | apiRateLimitError (msg : String)
  | apiError (msg : String)
deriving DecidableEq, Repr

/-- `OpenAIClient._handle_api_error`: lowercase the fault text, then test the
authentication branch (structured type or "authentication"/"auth" substring),
then the rate-limit branch (structured type or "rate limit"/"quota"
substring), else the generic branch.  Returns the error object that the source
puts into `ChatCompletionResult.fail(error=...)`. -/
def OpenAIClient.handle_api_error (error : PyAPIError) : MappedAPIError :=
  let error_str := strLower error.str
  if isAuthenticationError error
      || strContains error_str "authentication"
      || strContains error_str "auth" then
    MappedAPIError.apiAuthenticationError "Authentication failed with OpenAI API"
  else if isRateLimitError error
      || strContains error_str "rate limit"
      || strContains error_str "quota" then
    MappedAPIError.apiRateLimitError "Rate limit exceeded with OpenAI API"
  else
    MappedAPIError.apiError ("Unexpected error with OpenAI API: " ++ error.str)

/-- Counterexample to C8: a structurally typed rate-limit fault whose message
contains the substring "auth" (here inside "unauthorized") is classified by the
authentication branch, not the rate-limited one — substring matching runs
before the rate-limit `isinstance` check. -/
theorem handle_api_error_counterexample :
    OpenAIClient.handle_api_error
        (PyAPIError.rateLimitError "Rate limit reached for unauthorized key")
      = MappedAPIError.apiAuthenticationError "Authentication failed with OpenAI API"
    ∧ OpenAIClient.handle_api_error
        (PyAPIError.rateLimitError "Rate limit reached for unauthorized key")
      ≠ MappedAPIError.apiRateLimitError "Rate limit exceeded with OpenAI API" := by
  decide

/-- C8 as amended: branches run in the order authentication, rate limit,
generic, each testing its structured type together with its own substrings; a
structured authentication fault always classifies as authentication; a
structured rate-limit fault classifies as rate-limited provided its message
carries no authentication marker; and an untyped fault whose message contains
"rate limit" (and no authentication marker) classifies as rate-limited. -/
theorem handle_api_error_order (msg : String) :
    OpenAIClient.handle_api_error (PyAPIError.authenticationError msg)
      = MappedAPIError.apiAuthenticationError "Authentication failed with OpenAI API"
    ∧ (strContains (strLower msg) "authentication" = false →
        strContains (strLower msg) "auth" = false →
        OpenAIClient.handle_api_error (PyAPIError.rateLimitError msg)
          = MappedAPIError.apiRateLimitError "Rate limit exceeded with OpenAI API")
    ∧ (strContains (strLower msg) "authentication" = false →
        strContains (strLower msg) "auth" = false →
        strContains (strLower msg) "rate limit" = true →
        OpenAIClient.handle_api_error (PyAPIError.otherError msg)
          = MappedAPIError.apiRateLimitError "Rate limit exceeded with OpenAI API") := by
  refine ⟨?_, ?_, ?_⟩
  · simp [OpenAIClient.handle_api_error, isAuthenticationError, PyAPIError.str]
  · intro h1 h2
    simp [OpenAIClient.handle_api_error, isAuthenticationError, isRateLimitError,
      PyAPIError.str, h1, h2]
  · intro h1 h2 h3
    simp [OpenAIClient.handle_api_error, isAuthenticationError, isRateLimitError,
      PyAPIError.str, h1, h2, h3]

/-- Witness for the amended C8 at the spec's concrete message
"Rate limit exceeded". -/
theorem handle_api_error_order_witness :
    OpenAIClient.handle_api_error (PyAPIError.rateLimitError "Rate limit exceeded")
      = MappedAPIError.apiRateLimitError "Rate limit exceeded with OpenAI API"
    ∧ OpenAIClient.handle_api_error (PyAPIError.otherError "Rate limit exceeded")
      = MappedAPIError.apiRateLimitError "Rate limit exceeded with OpenAI API" :=
  ⟨(handle_api_error_order "Rate limit exceeded").2.1 (by decide) (by decide),
   (handle_api_error_order "Rate limit exceeded").2.2 (by decide) (by decide) (by decide)⟩

/-! ## Outcome type (`Result`, src/core/result.py)

The dataclass is embedded with its optional fields as `Option`s; Python
argument defaults (`None`) are modelled by passing `none` explicitly.
`metadata : Optional[Dict[str, Any]]` is modelled as an association list. -/

/-- A Python exception as `Result` sees it: `str(e)` is its message. -/
structure PyException where
  msg : String
deriving DecidableEq, Repr

/-- Python `str(e)` for exceptions. -/
def PyException.str (e : PyException) : String := e.msg

structure PyResult (T : Type) where
  success : Bool
  value : Option T
  error : Option PyException
  error_message : Option String
  metadata : Option (List (String × String))
deriving DecidableEq, Repr

/-- Python `a or b` for an optional string `a` (both `None` and `""` are falsy). -/
def pyOr (a : Option String) (b : String) : String :=
  match a with
  | some m => if m == "" then b else m
  | none => b

/-- `Result.ok(value, metadata=None)`. -/
def PyResult.ok {T : Type} (value : T)
    (metadata : Option (List (String × String))) : PyResult T :=
  ⟨true, some value, none, none, metadata⟩

/-- `Result.fail(error=None, error_message=None, metadata=None)`:
`error_message` becomes `error_message or (str(error) if error else "Unknown error")`. -/
def PyResult.fail {T : Type} (error : Option PyException)
    (error_message : Option String)
    (metadata : Option (List (String × String))) : PyResult T :=
  ⟨false, none, error,
    some (pyOr error_message
      (match error with
       | some e => e.str
       | none => "Unknown error")),
    metadata⟩

/-- Counterexample to C9: with `metadata` omitted (its default `None`), both
constructors leave `metadata` absent — it is not always a present, possibly
empty map. -/
theorem result_metadata_not_always_present :
    (PyResult.ok (42 : Nat) none).metadata = none
    ∧ (PyResult.fail none none none : PyResult Nat).metadata = none :=
  ⟨rfl, rfl⟩

/-- C9 as amended: every constructed value is exactly one of Ok (success,
value populated, error and error message absent) or Fail (failure, value
absent, error as supplied, error message always populated via the
`or`-default); `metadata` is exactly what was supplied, `None` when omitted. -/
theorem result_invariant (T : Type) (v : T) (err : Option PyException)
    (em : Option String) (md : Option (List (String × String))) :
    ((PyResult.ok v md).success = true
      ∧ (PyResult.ok v md).value = some v
      ∧ (PyResult.ok v md).error = none
      ∧ (PyResult.ok v md).error_message = none
      ∧ (PyResult.ok v md).metadata = md)
    ∧ ((PyResult.fail err em md : PyResult T).success = false
      ∧ (PyResult.fail err em md : PyResult T).value = none
      ∧ (PyResult.fail err em md : PyResult T).error = err
      ∧ (PyResult.fail err em md : PyResult T).error_message ≠ none
      ∧ (PyResult.fail err em md : PyResult T).metadata = md) := by
  refine ⟨⟨rfl, rfl, rfl, rfl, rfl⟩, ⟨rfl, rfl, rfl, ?_, rfl⟩⟩
  simp [PyResult.fail]

/-! ## Conversation store (src/database/models.py, src/database/repository.py)

Rows mirror the two SQLAlchemy models; the database state carries both tables
in row-insertion order and the autoincrement counters.  The `created_at` and
`timestamp` columns are declared as `Column(DateTime, default=datetime.now(UTC))`:
the `datetime.now(UTC)` call is evaluated once, when models.py is imported, so
SQLAlchemy receives a scalar default and every row of either table is stamped
with the same constant datetime. -/

/-- The one `datetime.now(UTC)` value captured at import time of models.py —
the scalar column default every Conversation's `created_at` and every
Message's `timestamp` receives.  Its actual value is irrelevant; it is one
fixed constant. -/
def MODULE_IMPORT_TIME : Nat := 0

structure ConversationRow where
  id : Nat
  chat_id : String
  user_id : Option String
  created_at : Nat
deriving DecidableEq, Repr

structure MessageRow where
  id : Nat
  conversation_id : Nat
  role : String
  content : String
  timestamp : Nat
deriving DecidableEq, Repr

structure DB where
  conversations : List ConversationRow
  messages : List MessageRow
  next_conv_id : Nat
  next_msg_id : Nat
deriving DecidableEq, Repr

/-- A freshly created database (autoincrement ids start at 1). -/
def DB.empty : DB := ⟨[], [], 1, 1⟩

/-- `ConversationRepository.get_or_create_conversation`: look the conversation
up by `chat_id`; create it if absent; if present and a truthy `user_id` is
supplied that differs from the stored one, update that column. -/
def ConversationRepository.get_or_create_conversation (db : DB) (chat_id : String)
    (user_id : Option String) : ConversationRow × DB :=
  match db.conversations.find? (fun c => c.chat_id == chat_id) with
  | some conversation =>
    match user_id with
    | some uid =>
      if uid != "" && conversation.user_id != some uid then
        let updated := { conversation with user_id := some uid }
        (updated,
          { db with conversations :=
              db.conversations.map (fun c => if c.id == conversation.id then updated else c) })
      else (conversation, db)
    | none => (conversation, db)
  | none =>
    let conversation : ConversationRow :=
      ⟨db.next_conv_id, chat_id, user_id, MODULE_IMPORT_TIME⟩
    (conversation,
      { db with conversations := db.conversations ++ [conversation],
                next_conv_id := db.next_conv_id + 1 })

/-- `ConversationRepository.add_message`: materialize the conversation, then
append a message row; its `timestamp` column receives the scalar default
`MODULE_IMPORT_TIME` (models.py line 45). -/
def ConversationRepository.add_message (db : DB) (chat_id role content : String) :
    MessageRow × DB :=
  let r := ConversationRepository.get_or_create_conversation db chat_id none
  let message : MessageRow :=
    ⟨r.2.next_msg_id, r.1.id, role, content, MODULE_IMPORT_TIME⟩
  (message,
    { r.2 with messages := r.2.messages ++ [message],
               next_msg_id := r.2.next_msg_id + 1 })

/-- Insert a row after every earlier row whose timestamp is not larger. -/
def insertByTs (m : MessageRow) : List MessageRow → List MessageRow
  | [] => [m]
  | x :: xs => if x.timestamp ≤ m.timestamp then x :: insertByTs m xs else m :: x :: xs

/-- One concrete refinement of `ORDER BY timestamp`, used only so that
`get_messages` stays an executable function: a sort on `timestamp` that keeps
the stored order among equal keys.  SQL itself promises nothing about the
order of equal keys; every theorem about the ORDER the rows come back in is
therefore stated against the contract `OrderByTimestampAdmissible` below, not
against this function. -/
def orderByTimestamp (rows : List MessageRow) : List MessageRow :=
  rows.foldl (fun acc m => insertByTs m acc) []

/-- The contract `ORDER BY timestamp` actually gives the caller: some
enumeration of the selected rows that is nondecreasing in `timestamp`.  Among
rows with equal timestamps the order is unspecified — any permutation of a
tie class may come back. -/
def OrderByTimestampAdmissible (rows out : List MessageRow) : Prop :=
  rows.Perm out ∧ out.Pairwise (fun a b => a.timestamp ≤ b.timestamp)

/-- `ConversationRepository.get_messages`: rows of the conversation in
timestamp order, optionally cut by `limit` (a falsy `limit`, i.e. `None` or
`0`, means no cut — `if limit:`), projected to OpenAI `{role, content}`
format. -/
def ConversationRepository.get_messages (db : DB) (chat_id : String)
    (limit : Option Nat) : List Message × DB :=
  let r := ConversationRepository.get_or_create_conversation db chat_id none
  let rows := orderByTimestamp
    (r.2.messages.filter (fun m => m.conversation_id == r.1.id))
  let cut := match limit with
    | some n => if n == 0 then rows else rows.take n
    | none => rows
  (cut.map (fun m => Message.mk m.role m.content), r.2)

/-- `ConversationRepository.clear_conversation`: delete every message row of
the conversation; the conversation row itself stays. -/
def ConversationRepository.clear_conversation (db : DB) (chat_id : String) : DB :=
  let r := ConversationRepository.get_or_create_conversation db chat_id none
  { r.2 with messages :=
      r.2.messages.filter (fun m => m.conversation_id != r.1.id) }

/-- C10: a `limit` of `0` is falsy in `if limit:`, so it is treated as no
limit at all — `get_messages` returns the whole conversation. -/
theorem get_messages_limit_zero (db : DB) (chat_id : String) :
    ConversationRepository.get_messages db chat_id (some 0)
      = ConversationRepository.get_messages db chat_id none := rfl

/-- C7: clearing a conversation empties its message list but neither deletes
nor modifies the conversation row: `get_or_create_conversation` returns the
very same row (same id, chat id, creation timestamp) before and after. -/
theorem clear_preserves_conversation (db : DB) (chat_id : String)
    (conv : ConversationRow)
    (h : db.conversations.find? (fun x => x.chat_id == chat_id) = some conv) :
    (ConversationRepository.get_messages
        (ConversationRepository.clear_conversation db chat_id) chat_id none).1 = []
    ∧ (ConversationRepository.get_or_create_conversation db chat_id none).1 = conv
    ∧ (ConversationRepository.get_or_create_conversation
        (ConversationRepository.clear_conversation db chat_id) chat_id none).1 = conv
    ∧ (ConversationRepository.clear_conversation db chat_id).conversations
        = db.conversations := by
  have hclear : ConversationRepository.clear_conversation db chat_id
      = { db with messages :=
            db.messages.filter (fun m => m.conversation_id != conv.id) } := by
    simp [ConversationRepository.clear_conversation,
      ConversationRepository.get_or_create_conversation, h]
  refine ⟨?_, ?_, ?_, ?_⟩
  · rw [hclear]
    simp only [ConversationRepository.get_messages,
      ConversationRepository.get_or_create_conversation, h, List.filter_filter]
    have hfalse : db.messages.filter
        (fun a => (a.conversation_id == conv.id) && (a.conversation_id != conv.id))
        = [] := by
      rw [List.filter_eq_nil_iff]
      intro a _
      cases hb : a.conversation_id == conv.id <;> simp [bne, hb]
    rw [hfalse]
    simp [orderByTimestamp]
  · simp [ConversationRepository.get_or_create_conversation, h]
  · rw [hclear]
    simp [ConversationRepository.get_or_create_conversation, h]
  · rw [hclear]

/-- Concrete database for witnesses: two messages added for chat "42". -/
def dbW : DB :=
  (ConversationRepository.add_message
    ((ConversationRepository.add_message DB.empty "42" "user" "hi").2)
    "42" "assistant" "hello").2

/-- The conversation row for chat "42" inside `dbW`. -/
def convW : ConversationRow := ⟨1, "42", none, 0⟩

/-- Witness for C7 on the concrete database. -/
theorem clear_preserves_conversation_witness :
    (ConversationRepository.get_messages
        (ConversationRepository.clear_conversation dbW "42") "42" none).1 = []
    ∧ (ConversationRepository.get_or_create_conversation
        (ConversationRepository.clear_conversation dbW "42") "42" none).1 = convW :=
  ⟨(clear_preserves_conversation dbW "42" convW (by decide)).1,
   (clear_preserves_conversation dbW "42" convW (by decide)).2.2.1⟩

/-! ### Ordering after a sequence of appends (C6) -/

/-- The database after C6's failing input: `add_message("42", "user", "first")`
then `add_message("42", "assistant", "second")` on a fresh store. -/
def dbC6 : DB :=
  (ConversationRepository.add_message
    ((ConversationRepository.add_message DB.empty "42" "user" "first").2)
    "42" "assistant" "second").2

/-- The row set the `get_messages("42")` query selects from `dbC6`, in stored
order — the input the query's `ORDER BY timestamp` is applied to. -/
def rowsC6 : List MessageRow :=
  dbC6.messages.filter (fun m => m.conversation_id == convW.id)

/-- C6, evaluated at the failing input: after the two appends, both stored
rows carry the single scalar default timestamp `MODULE_IMPORT_TIME`
(models.py evaluates `datetime.now(UTC)` once at import), and the query
orders by `timestamp` alone with no id tie-break — so the ORDER BY contract
admits the call-order enumeration AND its reversal, two different
`{role, content}` sequences.  The code therefore does not guarantee the call
order that the claim (and the spec's ordering invariant, which promises an id
tie-break the query does not have) asserts. -/
theorem get_messages_order_not_determined :
    (∀ m ∈ rowsC6, m.timestamp = MODULE_IMPORT_TIME)
    ∧ OrderByTimestampAdmissible rowsC6 rowsC6
    ∧ OrderByTimestampAdmissible rowsC6 rowsC6.reverse
    ∧ rowsC6.map (fun m => Message.mk m.role m.content)
        = [Message.mk "user" "first", Message.mk "assistant" "second"]
    ∧ rowsC6.reverse.map (fun m => Message.mk m.role m.content)
        = [Message.mk "assistant" "second", Message.mk "user" "first"]
    ∧ rowsC6.map (fun m => Message.mk m.role m.content)
        ≠ rowsC6.reverse.map (fun m => Message.mk m.role m.content) := by
  refine ⟨by decide, ?_, ?_, by decide, by decide, by decide⟩
  · exact ⟨List.Perm.refl _, by decide⟩
  · exact ⟨(List.reverse_perm rowsC6).symm, by decide⟩

end PersonalAssistant
